import Mathlib

/-!
Verification of the liquidatable-accounts-feed core against its specification.

The development shallowly embeds the Rust source (`src/main.rs`,
`src/snapshot_source.rs`) in Lean:

* account keys are natural numbers, byte buffers are lists of naturals;
* the external mango/serum decoding functions and the margin-health formula
  (out-of-scope collaborators supplied as pure functions) are parameters,
  collected in the `ExtFns` structure;
* fallible Rust code returns `Except String`, and a Rust panic is modelled
  as an `Except.error`;
* the ledger mirror (`chain_data.rs`, not present in the sources) is
  modelled from the specification, §4.1.
-/

/-- Account keys (`solana_sdk::pubkey::Pubkey`), opaque fixed-size ids. -/
abbrev Pubkey := Nat

/-- Raw account payload bytes. -/
abbrev Bytes := List Nat

/-- Ledger slot height. -/
abbrev Slot := Nat

/-- Decidable equality of `Except` results, for concrete evaluation. -/
instance {ε α : Type} [DecidableEq ε] [DecidableEq α] :
    DecidableEq (Except ε α) := fun a b =>
  match a, b with
  | .error e1, .error e2 =>
    if h : e1 = e2 then .isTrue (by rw [h])
    else .isFalse (fun hc => by cases hc; exact h rfl)
  | .error _, .ok _ => .isFalse (fun hc => by cases hc)
  | .ok _, .error _ => .isFalse (fun hc => by cases hc)
  | .ok a1, .ok a2 =>
    if h : a1 = a2 then .isTrue (by rw [h])
    else .isFalse (fun hc => by cases hc; exact h rfl)

/-- The mirrored pieces of `solana_sdk::account::AccountSharedData` that the
core reads: owner and raw data. -/
structure AccountSharedData where
  owner : Pubkey
  data : Bytes
deriving DecidableEq

/-- `mango::state::DataType`: the one-byte discriminant enumeration of the
external mango program (a closed enum with twelve variants). -/
inductive DataType
  | MangoGroup
  | MangoAccount
  | RootBank
  | NodeBank
  | PerpMarket
  | Bids
  | Asks
  | MangoCache
  | EventQueue
  | AdvancedOrders
  | ReferrerMemory
  | ReferrerIdRecord
deriving DecidableEq

/-- The `as u8` view of a `DataType` value. -/
def DataType.toByte : DataType → Nat
  | .MangoGroup => 0
  | .MangoAccount => 1
  | .RootBank => 2
  | .NodeBank => 3
  | .PerpMarket => 4
  | .Bids => 5
  | .Asks => 6
  | .MangoCache => 7
  | .EventQueue => 8
  | .AdvancedOrders => 9
  | .ReferrerMemory => 10
  | .ReferrerIdRecord => 11

/-- `DataType::try_from` (num_enum `TryFromPrimitive`): fails on any byte
that is not a declared discriminant. -/
def DataType.tryFrom : Nat → Option DataType
  | 0 => some .MangoGroup
  | 1 => some .MangoAccount
  | 2 => some .RootBank
  | 3 => some .NodeBank
  | 4 => some .PerpMarket
  | 5 => some .Bids
  | 6 => some .Asks
  | 7 => some .MangoCache
  | 8 => some .EventQueue
  | 9 => some .AdvancedOrders
  | 10 => some .ReferrerMemory
  | 11 => some .ReferrerIdRecord
  | _ => none

/-- The fields of `mango::state::MangoGroup` the core reads. -/
structure MangoGroup where
  num_oracles : Nat
deriving DecidableEq

/-- `mango::state::MangoCache`, opaque to the core (only passed through to
the health formula). -/
structure MangoCache where
  payload : Bytes
deriving DecidableEq

/-- The fields of `mango::state::MangoAccount` the core reads. -/
structure MangoAccount where
  mango_group : Pubkey
  being_liquidated : Bool
  in_margin_basket : List Bool
  spot_open_orders : List Pubkey
deriving DecidableEq

/-- `serum_dex::state::OpenOrders`, opaque to the core. -/
structure OpenOrders where
  payload : Bytes
deriving DecidableEq

/-- `mango::state::HealthCache`, opaque to the core. -/
structure HealthCache where
  payload : Bytes
deriving DecidableEq

/-- `mango::state::HealthType` threshold selector. -/
inductive HealthType
  | Init
  | Maint
deriving DecidableEq

/-- The external collaborator functions and constants (mango / serum layout
decoding and the margin-health formula), supplied as pure functions per the
specification's scope. The health scalar `I80F48` is modelled as `Int`
(fixed-point values compare to zero exactly as their underlying integer). -/
structure ExtFns where
  groupSize : Nat
  cacheSize : Nat
  accountSize : Nat
  ooSize : Nat
  loadGroup : Bytes → MangoGroup
  loadCache : Bytes → MangoCache
  loadAccount : Bytes → MangoAccount
  loadOO : Bytes → OpenOrders
  newHealthCache : MangoGroup → MangoAccount → HealthCache
  initVals : HealthCache → MangoGroup → MangoCache → MangoAccount →
    List (Option OpenOrders) → Except String HealthCache
  getHealth : HealthCache → MangoGroup → HealthType → Int

/-- `IsLiquidatable` (main.rs:130-135). -/
structure IsLiquidatable where
  liquidatable : Bool
  being_liquidated : Bool
  health : Int
deriving DecidableEq

/-- `websocket_sink::LiquidatableInfo`: the notification events. -/
inductive LiquidatableInfo
  | Start (account : Pubkey)
  | Stop (account : Pubkey)
deriving DecidableEq

/-- The key an event is about. -/
def LiquidatableInfo.key : LiquidatableInfo → Pubkey
  | .Start a => a
  | .Stop a => a

/-- `handle_result` (main.rs:161-187): the detector transition. Takes the
evaluation result for one key and the current liquidatable set, returns the
new set and the list of events sent on the broadcast channel. -/
def handle_result (account_id : Pubkey) (liquidatable_result : Except String IsLiquidatable)
    (currently_liquidatable : Finset Pubkey) : Finset Pubkey × List LiquidatableInfo :=
  match liquidatable_result with
  | .error _ => (currently_liquidatable, [])
  | .ok res =>
    let was_liquidatable := account_id ∈ currently_liquidatable
    let after1 :=
      if res.liquidatable = true ∧ ¬ was_liquidatable then
        (insert account_id currently_liquidatable,
          [LiquidatableInfo.Start account_id])
      else (currently_liquidatable, ([] : List LiquidatableInfo))
    if res.liquidatable = false ∧ was_liquidatable then
      (after1.1.erase account_id, after1.2 ++ [LiquidatableInfo.Stop account_id])
    else after1

/-- Case characterization of `handle_result`, shared by several proofs. -/
theorem handle_result_char (k : Pubkey) (r : Except String IsLiquidatable)
    (s : Finset Pubkey) :
    handle_result k r s =
      match r with
      | .error _ => (s, [])
      | .ok res =>
        if res.liquidatable = true ∧ k ∉ s then
          (insert k s, [LiquidatableInfo.Start k])
        else if res.liquidatable = false ∧ k ∈ s then
          (s.erase k, [LiquidatableInfo.Stop k])
        else (s, []) := by
  cases r with
  | error e => rfl
  | ok res =>
    by_cases hmem : k ∈ s <;> cases hliq : res.liquidatable <;>
      simp [handle_result, hmem, hliq]

/-- C1: `handle_result` implements exactly the four-case contract: error →
unchanged and no event; liquidatable ∧ absent → insert and emit Start;
not liquidatable ∧ present → remove and emit Stop; otherwise unchanged and
no event. -/
theorem handle_result_four_cases (k : Pubkey) (r : Except String IsLiquidatable)
    (s : Finset Pubkey) :
    handle_result k r s =
      match r with
      | .error _ => (s, [])
      | .ok res =>
        if res.liquidatable = true ∧ k ∉ s then
          (insert k s, [LiquidatableInfo.Start k])
        else if res.liquidatable = false ∧ k ∈ s then
          (s.erase k, [LiquidatableInfo.Stop k])
        else (s, []) :=
  handle_result_char k r s

/-- C9: each call to `handle_result` emits at most one event; an event is
emitted iff the key's membership changes; the event is Start exactly when
the key was inserted and Stop exactly when it was removed. -/
theorem handle_result_single_event (k : Pubkey) (r : Except String IsLiquidatable)
    (s : Finset Pubkey) :
    (handle_result k r s).2.length ≤ 1 ∧
    ((handle_result k r s).2 ≠ [] ↔ ¬ (k ∈ (handle_result k r s).1 ↔ k ∈ s)) ∧
    ((handle_result k r s).2 = [LiquidatableInfo.Start k] ↔
      (k ∉ s ∧ k ∈ (handle_result k r s).1)) ∧
    ((handle_result k r s).2 = [LiquidatableInfo.Stop k] ↔
      (k ∈ s ∧ k ∉ (handle_result k r s).1)) := by
  rw [handle_result_char]
  cases r with
  | error e => simp
  | ok res =>
    by_cases hmem : k ∈ s <;> cases hliq : res.liquidatable <;>
      simp [hmem, hliq]

/-- Sequential application of `handle_result` to a list of successful
evaluation results for one key, accumulating the emitted events (the event
loop calls `handle_result` once per evaluation of a key). -/
def run_results (k : Pubkey) (results : List IsLiquidatable)
    (s : Finset Pubkey) : Finset Pubkey × List LiquidatableInfo :=
  match results with
  | [] => (s, [])
  | r :: rest =>
    let first := handle_result k (Except.ok r) s
    let later := run_results k rest first.1
    (later.1, first.2 ++ later.2)

/-- Modelled from the spec: the edge-event stream for one key — exactly one
event at each change of the liquidatable flag, given the previous flag
state. -/
def spec_edge_events (k : Pubkey) : Bool → List Bool → List LiquidatableInfo
  | _, [] => []
  | prev, b :: rest =>
    (if b = true ∧ prev = false then [LiquidatableInfo.Start k]
     else if b = false ∧ prev = true then [LiquidatableInfo.Stop k]
     else []) ++ spec_edge_events k b rest

/-- The events of a run of successful results are exactly the edge events of
the liquidatable-flag sequence, provided the set encodes the previous flag
state. -/
theorem run_results_eq_edges (k : Pubkey) (results : List IsLiquidatable) :
    ∀ (s : Finset Pubkey) (prev : Bool), (k ∈ s ↔ prev = true) →
      (run_results k results s).2
        = spec_edge_events k prev (results.map IsLiquidatable.liquidatable) := by
  induction results with
  | nil => intro s prev h; rfl
  | cons r rest ih =>
    intro s prev h
    simp only [run_results, List.map, spec_edge_events]
    rw [handle_result_char]
    cases prev with
    | false =>
      have hks : k ∉ s := by simp [h]
      cases hliq : r.liquidatable with
      | false =>
        simp only [hks, hliq]
        simp [ih s false (by simp [hks])]
      | true =>
        simp only [hks, hliq]
        simp [ih (insert k s) true (by simp)]
    | true =>
      have hks : k ∈ s := h.mpr rfl
      cases hliq : r.liquidatable with
      | false =>
        simp only [hks, hliq]
        simp [ih (s.erase k) false (by simp)]
      | true =>
        simp only [hks, hliq]
        simp [ih s true (by simp [hks])]

/-- Alternation from a previous flag state: the next event is Stop if the
previous state was true, Start otherwise, and the expected state flips after
each event. -/
def altFrom (k : Pubkey) : Bool → List LiquidatableInfo → Prop
  | _, [] => True
  | prev, e :: rest =>
    e = (if prev then LiquidatableInfo.Stop k else LiquidatableInfo.Start k) ∧
      altFrom k (!prev) rest

/-- The spec edge-event stream alternates. -/
theorem spec_edge_events_alt (k : Pubkey) (flags : List Bool) :
    ∀ prev, altFrom k prev (spec_edge_events k prev flags) := by
  induction flags with
  | nil => intro prev; trivial
  | cons b rest ih =>
    intro prev
    cases b <;> cases prev <;> simp [spec_edge_events, altFrom] <;> exact ih _

/-- An alternating event stream never has two equal consecutive events. -/
theorem altFrom_chain (k : Pubkey) (l : List LiquidatableInfo) :
    ∀ prev, altFrom k prev l → l.Chain' (fun a b => a ≠ b) := by
  induction l with
  | nil => intro prev _; simp
  | cons e rest ih =>
    intro prev h
    cases rest with
    | nil => simp
    | cons e2 rest2 =>
      obtain ⟨he, h2⟩ := h
      rw [List.chain'_cons]
      refine ⟨?_, ih (!prev) h2⟩
      obtain ⟨he2, _⟩ := h2
      subst he he2
      cases prev <;> simp

/-- The health-sign example sequence [+,+,-,-,+,-], as evaluation results
(liquidatable = health < 0). -/
def exampleResults : List IsLiquidatable :=
  [⟨false, false, 1⟩, ⟨false, false, 1⟩, ⟨true, false, -1⟩,
   ⟨true, false, -1⟩, ⟨false, false, 1⟩, ⟨true, false, -1⟩]

/-- C2: for a single key starting outside the set, the events of a run of
successful results are exactly the edge events of the flag sequence, they
strictly alternate, and the health-sign sequence [+,+,-,-,+,-] yields
exactly [Start, Stop, Start]. -/
theorem handle_result_edge_triggering :
    (∀ (k : Pubkey) (results : List IsLiquidatable) (s : Finset Pubkey), k ∉ s →
      (run_results k results s).2
          = spec_edge_events k false (results.map IsLiquidatable.liquidatable) ∧
        List.Chain' (fun a b => a ≠ b) (run_results k results s).2) ∧
    (run_results 7 exampleResults ∅).2
      = [LiquidatableInfo.Start 7, LiquidatableInfo.Stop 7,
          LiquidatableInfo.Start 7] := by
  constructor
  · intro k results s hk
    have h := run_results_eq_edges k results s false (by simp [hk])
    refine ⟨h, ?_⟩
    rw [h]
    exact altFrom_chain k _ false (spec_edge_events_alt k _ false)
  · decide

/-- Witness for C2 at a concrete input. -/
theorem handle_result_edge_triggering_witness :
    (run_results 7 exampleResults ∅).2
        = spec_edge_events 7 false (exampleResults.map IsLiquidatable.liquidatable) ∧
      List.Chain' (fun a b => a ≠ b) (run_results 7 exampleResults ∅).2 :=
  handle_result_edge_triggering.1 7 exampleResults ∅ (by decide)

/-- `compute_liquidatable` (main.rs:137-159): build the health cache via the
supplied functions, choose the threshold from the being_liquidated flag,
and flag liquidatable iff the health is negative. -/
def compute_liquidatable (ext : ExtFns) (group : MangoGroup) (cache : MangoCache)
    (account : MangoAccount) (open_orders : List (Option OpenOrders)) :
    Except String IsLiquidatable :=
  match ext.initVals (ext.newHealthCache group account) group cache account
      open_orders with
  | .error e => .error e
  | .ok health_cache =>
    let health_type :=
      if account.being_liquidated then HealthType.Init else HealthType.Maint
    let health := ext.getHealth health_cache group health_type
    .ok { liquidatable := decide (health < 0),
          being_liquidated := account.being_liquidated,
          health := health }

/-- C4: when the supplied margin-health function succeeds, the result's
liquidatable flag equals (health < 0), its being_liquidated flag equals the
account's flag, and the health is computed with the Initial threshold when
the account is flagged being_liquidated and Maintenance otherwise. -/
theorem compute_liquidatable_spec (ext : ExtFns) (group : MangoGroup)
    (cache : MangoCache) (account : MangoAccount)
    (open_orders : List (Option OpenOrders)) (hc : HealthCache)
    (h : ext.initVals (ext.newHealthCache group account) group cache account
      open_orders = Except.ok hc) :
    compute_liquidatable ext group cache account open_orders =
      Except.ok
        { liquidatable := decide (ext.getHealth hc group
            (if account.being_liquidated then HealthType.Init
             else HealthType.Maint) < 0),
          being_liquidated := account.being_liquidated,
          health := ext.getHealth hc group
            (if account.being_liquidated then HealthType.Init
             else HealthType.Maint) } ∧
    ∀ r, compute_liquidatable ext group cache account open_orders = Except.ok r →
      ((r.liquidatable = true ↔ r.health < 0) ∧
        r.being_liquidated = account.being_liquidated) := by
  have hmain : compute_liquidatable ext group cache account open_orders =
      Except.ok
        { liquidatable := decide (ext.getHealth hc group
            (if account.being_liquidated then HealthType.Init
             else HealthType.Maint) < 0),
          being_liquidated := account.being_liquidated,
          health := ext.getHealth hc group
            (if account.being_liquidated then HealthType.Init
             else HealthType.Maint) } := by
    unfold compute_liquidatable
    rw [h]
  refine ⟨hmain, ?_⟩
  intro r hr
  rw [hmain] at hr
  cases hr
  simp

/-- A concrete instantiation of the external collaborators, used by
witnesses. -/
def extT : ExtFns where
  groupSize := 2
  cacheSize := 2
  accountSize := 5
  ooSize := 1
  loadGroup := fun d => { num_oracles := d.getD 1 0 }
  loadCache := fun d => { payload := d }
  loadAccount := fun d =>
    { mango_group := d.getD 1 0, being_liquidated := d.getD 2 0 != 0,
      in_margin_basket := [d.getD 3 0 != 0], spot_open_orders := [d.getD 4 0] }
  loadOO := fun d => { payload := d }
  newHealthCache := fun _ _ => { payload := [] }
  initVals := fun hc _ _ _ _ => Except.ok hc
  getHealth := fun _ _ _ => -1

/-- Concrete margin account for witnesses. -/
def accT : MangoAccount :=
  { mango_group := 1, being_liquidated := false, in_margin_basket := [],
    spot_open_orders := [] }

/-- Concrete group for witnesses. -/
def groupT : MangoGroup := { num_oracles := 0 }

/-- Concrete cache for witnesses. -/
def cacheT : MangoCache := { payload := [] }

/-- Concrete health cache for witnesses. -/
def hcT : HealthCache := { payload := [] }

/-- Witness for C4 at a concrete input. -/
theorem compute_liquidatable_spec_witness :
    compute_liquidatable extT groupT cacheT accT [] =
      Except.ok
        { liquidatable := decide (extT.getHealth hcT groupT
            (if accT.being_liquidated then HealthType.Init
             else HealthType.Maint) < 0),
          being_liquidated := accT.being_liquidated,
          health := extT.getHealth hcT groupT
            (if accT.being_liquidated then HealthType.Init
             else HealthType.Maint) } ∧
    ∀ r, compute_liquidatable extT groupT cacheT accT [] = Except.ok r →
      ((r.liquidatable = true ↔ r.health < 0) ∧
        r.being_liquidated = accT.being_liquidated) :=
  compute_liquidatable_spec extT groupT cacheT accT [] hcT rfl

/-- `is_mango_account` (main.rs:231-252). The source line 240 runs
`DataType::try_from(data[0]).unwrap()`, which panics when the first data
byte is not a declared discriminant; the panic is modelled as
`Except.error`. -/
def is_mango_account (ext : ExtFns) (account : AccountSharedData)
    (program_id group_id : Pubkey) : Except String (Option MangoAccount) :=
  if account.owner ≠ program_id ∨ account.data.length = 0 then Except.ok none
  else
    match DataType.tryFrom (account.data.getD 0 0) with
    | none => Except.error "panicked in DataType unwrap"
    | some kind =>
      if kind ≠ DataType.MangoAccount then Except.ok none
      else if account.data.length ≠ ext.accountSize then Except.ok none
      else
        if (ext.loadAccount account.data).mango_group ≠ group_id then
          Except.ok none
        else Except.ok (some (ext.loadAccount account.data))

/-- `is_mango_cache` (main.rs:254-261); same panicking unwrap on line 259. -/
def is_mango_cache (account : AccountSharedData) (program_id : Pubkey) :
    Except String Bool :=
  if account.owner ≠ program_id ∨ account.data.length = 0 then Except.ok false
  else
    match DataType.tryFrom (account.data.getD 0 0) with
    | none => Except.error "panicked in DataType unwrap"
    | some kind => Except.ok (decide (kind = DataType.MangoCache))

/-- C3 (code bug): on an account owned by the right program whose first data
byte (here 12) is not a declared discriminant, both classifiers panic in the
`DataType::try_from(data[0]).unwrap()` call instead of returning None/false,
contradicting the totality the specification states. -/
theorem classifier_discriminant_panic :
    is_mango_account extT { owner := 5, data := [12] } 5 1 =
        Except.error "panicked in DataType unwrap" ∧
      is_mango_cache { owner := 5, data := [12] } 5 =
        Except.error "panicked in DataType unwrap" :=
  ⟨rfl, rfl⟩

/-- Slot confirmation status (§3 of the spec). -/
inductive SlotStatus
  | Processed
  | Confirmed
  | Rooted
deriving DecidableEq

/-- An account write retained by the mirror (§3 of the spec). -/
structure AccountWrite where
  pubkey : Pubkey
  slot : Slot
  write_version : Nat
  owner : Pubkey
  data : Bytes
deriving DecidableEq

/-- Modelled from the spec: the ledger mirror state (the repository module
`chain_data.rs` is declared in main.rs:1 but absent from the sources; §4.1
of the spec defines its contract): recorded slot statuses and retained
write candidates. -/
structure ChainData where
  slots : List (Slot × SlotStatus)
  writes : List AccountWrite
deriving DecidableEq

/-- Modelled from the spec: the status recorded for a slot; a slot never
announced counts as Processed (provisional). -/
def ChainData.slotStatus (cd : ChainData) (s : Slot) : SlotStatus :=
  match cd.slots.find? (fun p => p.1 == s) with
  | some p => p.2
  | none => SlotStatus.Processed

/-- Confirmed-or-better test (§4.1, "status ≥ Confirmed"). -/
def SlotStatus.confirmedOrBetter : SlotStatus → Bool
  | .Processed => false
  | .Confirmed => true
  | .Rooted => true

/-- Priority order on candidate writes (§4.1): higher slot wins, ties broken
by higher write_version. -/
def writeBetter (a b : AccountWrite) : Bool :=
  decide (b.slot < a.slot) ||
    (decide (a.slot = b.slot) && decide (b.write_version < a.write_version))

/-- Best candidate of a list under `writeBetter` (earlier candidate wins a
full tie). -/
def bestOf : List AccountWrite → Option AccountWrite
  | [] => none
  | w :: rest =>
    match bestOf rest with
    | none => some w
    | some b => if writeBetter b w then some b else some w

/-- Modelled from the spec (§4.1 resolution policy): prefer the best
confirmed-or-better candidate for the key; otherwise fall back to the best
Processed candidate. -/
def ChainData.bestWrite (cd : ChainData) (key : Pubkey) : Option AccountWrite :=
  match bestOf ((cd.writes.filter (fun w => w.pubkey == key)).filter
      (fun w => (cd.slotStatus w.slot).confirmedOrBetter)) with
  | some w => some w
  | none =>
    bestOf ((cd.writes.filter (fun w => w.pubkey == key)).filter
      (fun w => cd.slotStatus w.slot == SlotStatus.Processed))

/-- Modelled from the spec: `update(write)` retains the new candidate. -/
def ChainData.updateWrite (cd : ChainData) (w : AccountWrite) : ChainData :=
  { cd with writes := w :: cd.writes }

/-- Modelled from the spec: `update(slotStatus)` records the slot status. -/
def ChainData.updateSlot (cd : ChainData) (s : Slot) (st : SlotStatus) :
    ChainData :=
  { cd with slots := (s, st) :: cd.slots }

/-- Modelled from the spec: `lookup`, in the form `ChainData::account` used
by `load_mango_account_from_chain` (main.rs:82-93): the authoritative bytes,
or an error when the key was never observed. -/
def ChainData.account (cd : ChainData) (key : Pubkey) :
    Except String AccountSharedData :=
  match cd.bestWrite key with
  | none => Except.error "retrieving account from chain"
  | some w => Except.ok { owner := w.owner, data := w.data }

/-- `bestOf` returns an element of its list. -/
theorem bestOf_mem (l : List AccountWrite) (w : AccountWrite) :
    bestOf l = some w → w ∈ l := by
  induction l with
  | nil => intro h; cases h
  | cons a rest ih =>
    intro h
    unfold bestOf at h
    split at h
    · injection h with h2
      rw [← h2]
      exact List.mem_cons_self a rest
    · rename_i b hb
      by_cases hc : writeBetter b a = true
      · rw [if_pos hc] at h
        injection h with h2
        rw [h2] at hb
        exact List.mem_cons_of_mem a (ih hb)
      · rw [if_neg hc] at h
        injection h with h2
        rw [← h2]
        exact List.mem_cons_self a rest

/-- A strictly worse new head does not change the best candidate. -/
theorem bestOf_cons_of_better (l : List AccountWrite) (w v : AccountWrite)
    (h : bestOf l = some w) (hb : writeBetter w v = true) :
    bestOf (v :: l) = some w := by
  unfold bestOf
  rw [h]
  show (if writeBetter w v = true then some w else some v) = some w
  rw [if_pos hb]

/-- C8 (spec-modelled mirror): once lookup returns a write whose slot is
Rooted, a later update with a write at a strictly lower slot does not change
the lookup result for that key. -/
theorem chaindata_freshness_monotonic (cd : ChainData) (key : Pubkey)
    (w wNew : AccountWrite) (hl : cd.bestWrite key = some w)
    (hr : cd.slotStatus w.slot = SlotStatus.Rooted)
    (hs : wNew.slot < w.slot) :
    (cd.updateWrite wNew).bestWrite key = some w := by
  have hstat : ∀ s, (cd.updateWrite wNew).slotStatus s = cd.slotStatus s :=
    fun _ => rfl
  have hwrites : (cd.updateWrite wNew).writes = wNew :: cd.writes := rfl
  have hbetter : writeBetter w wNew = true := by
    unfold writeBetter
    simp [hs]
  have hgood : bestOf ((cd.writes.filter (fun v => v.pubkey == key)).filter
      (fun v => (cd.slotStatus v.slot).confirmedOrBetter)) = some w := by
    cases hg : bestOf ((cd.writes.filter (fun v => v.pubkey == key)).filter
        (fun v => (cd.slotStatus v.slot).confirmedOrBetter)) with
    | some w2 =>
      unfold ChainData.bestWrite at hl
      rw [hg] at hl
      injection hl with h2
      rw [h2]
    | none =>
      unfold ChainData.bestWrite at hl
      rw [hg] at hl
      have hmem := bestOf_mem _ _ hl
      rw [List.mem_filter] at hmem
      rw [hr] at hmem
      simp at hmem
  unfold ChainData.bestWrite
  rw [hwrites]
  simp only [hstat]
  by_cases hpk : (wNew.pubkey == key) = true
  · simp only [List.filter_cons, hpk, if_true]
    by_cases hcb : (cd.slotStatus wNew.slot).confirmedOrBetter = true
    · rw [if_pos hcb]
      rw [bestOf_cons_of_better _ w wNew hgood hbetter]
    · rw [if_neg hcb]
      rw [hgood]
  · simp only [List.filter_cons, hpk, Bool.false_eq_true, if_false]
    rw [hgood]

/-- Concrete rooted write for the C8 witness. -/
def w8 : AccountWrite :=
  { pubkey := 1, slot := 2, write_version := 0, owner := 9, data := [] }

/-- Concrete mirror holding `w8`, its slot Rooted. -/
def cd8 : ChainData := { slots := [(2, SlotStatus.Rooted)], writes := [w8] }

/-- A stale candidate at a lower slot for the C8 witness. -/
def w8new : AccountWrite :=
  { pubkey := 1, slot := 1, write_version := 5, owner := 9, data := [] }

/-- Witness for C8 at a concrete input. -/
theorem chaindata_freshness_monotonic_witness :
    (cd8.updateWrite w8new).bestWrite 1 = some w8 :=
  chaindata_freshness_monotonic cd8 1 w8 w8new (by decide) (by decide)
    (by decide)

/-- `load_mango_account` (main.rs:58-80), generic over the target layout:
exact size check, then one-byte discriminant check, then the supplied
decode function. -/
def load_mango_account {T : Type} (sz : Nat) (data_type : DataType)
    (load : Bytes → T) (account : AccountSharedData) : Except String T :=
  if account.data.length ≠ sz then Except.error "bad account size"
  else if account.data.getD 0 0 ≠ data_type.toByte then
    Except.error "unexpected data type"
  else Except.ok (load account.data)

/-- `load_mango_account_from_chain` (main.rs:82-93). -/
def load_mango_account_from_chain {T : Type} (sz : Nat) (data_type : DataType)
    (load : Bytes → T) (cd : ChainData) (pubkey : Pubkey) : Except String T :=
  match cd.account pubkey with
  | Except.error e => Except.error e
  | Except.ok acc => load_mango_account sz data_type load acc

/-- The five-byte "serum" header. -/
def serumBytes : Bytes := [115, 101, 114, 117, 109]

/-- `load_open_orders` (main.rs:95-113): size check, header check, decode
of the bytes between the header and the 7-byte trailer. -/
def load_open_orders (ext : ExtFns) (account : AccountSharedData) :
    Except String OpenOrders :=
  if account.data.length ≠ 12 + ext.ooSize then
    Except.error "bad open orders account size"
  else if account.data.take 5 ≠ serumBytes then
    Except.error "unexpected open orders account header"
  else
    Except.ok (ext.loadOO
      ((account.data.drop 5).take (account.data.length - 12)))

/-- `MAX_PAIRS` from the mango layout. -/
def MAX_PAIRS : Nat := 15

/-- `get_open_orders` (main.rs:115-128): for each oracle index marked active
in the margin basket, load the referenced open-orders account from the
mirror. -/
def get_open_orders (ext : ExtFns) (cd : ChainData) (group : MangoGroup)
    (account : MangoAccount) : Except String (List (Option OpenOrders)) :=
  (List.range group.num_oracles).foldlM
    (fun unpacked i =>
      if account.in_margin_basket.getD i false then
        match cd.account (account.spot_open_orders.getD i 0) with
        | Except.error e => Except.error e
        | Except.ok oo =>
          match load_open_orders ext oo with
          | Except.error e => Except.error e
          | Except.ok o => Except.ok (unpacked.set i (some o))
      else Except.ok unpacked)
    (List.replicate MAX_PAIRS (none : Option OpenOrders))

/-- The end-to-end evaluation of one key: account load, open-orders load,
health computation (the fallible part of the loop body in
`process_accounts`, main.rs:204-224). -/
def evalKey (ext : ExtFns) (cd : ChainData) (group : MangoGroup)
    (cache : MangoCache) (pubkey : Pubkey) : Except String IsLiquidatable :=
  match load_mango_account_from_chain ext.accountSize DataType.MangoAccount
      ext.loadAccount cd pubkey with
  | Except.error e => Except.error e
  | Except.ok account =>
    match get_open_orders ext cd group account with
    | Except.error e => Except.error e
    | Except.ok oos => compute_liquidatable ext group cache account oos

/-- One iteration of the loop in `process_accounts` (main.rs:204-226):
load failures log and continue, the evaluation result goes to
`handle_result`. -/
def process_one (ext : ExtFns) (cd : ChainData) (group : MangoGroup)
    (cache : MangoCache) (acc : Finset Pubkey × List LiquidatableInfo)
    (pubkey : Pubkey) : Finset Pubkey × List LiquidatableInfo :=
  match load_mango_account_from_chain ext.accountSize DataType.MangoAccount
      ext.loadAccount cd pubkey with
  | Except.error _ => acc
  | Except.ok account =>
    match get_open_orders ext cd group account with
    | Except.error _ => acc
    | Except.ok oos =>
      ((handle_result pubkey (compute_liquidatable ext group cache account oos)
          acc.1).1,
        acc.2 ++ (handle_result pubkey
          (compute_liquidatable ext group cache account oos) acc.1).2)

/-- `process_accounts` (main.rs:189-229). -/
def process_accounts (ext : ExtFns) (cd : ChainData) (group_id cache_id : Pubkey)
    (accounts : List Pubkey) (currently_liquidatable : Finset Pubkey) :
    Except String (Finset Pubkey × List LiquidatableInfo) :=
  match load_mango_account_from_chain ext.groupSize DataType.MangoGroup
      ext.loadGroup cd group_id with
  | Except.error e => Except.error e
  | Except.ok group =>
    match load_mango_account_from_chain ext.cacheSize DataType.MangoCache
        ext.loadCache cd cache_id with
    | Except.error e => Except.error e
    | Except.ok cache =>
      Except.ok (accounts.foldl (process_one ext cd group cache)
        (currently_liquidatable, []))

/-- When the group and cache load, `process_accounts` is the fold of
`process_one` over the key list. -/
theorem process_accounts_ok (ext : ExtFns) (cd : ChainData)
    (group_id cache_id : Pubkey) (group : MangoGroup) (cache : MangoCache)
    (hg : load_mango_account_from_chain ext.groupSize DataType.MangoGroup
      ext.loadGroup cd group_id = Except.ok group)
    (hc : load_mango_account_from_chain ext.cacheSize DataType.MangoCache
      ext.loadCache cd cache_id = Except.ok cache)
    (accounts : List Pubkey) (s : Finset Pubkey) :
    process_accounts ext cd group_id cache_id accounts s =
      Except.ok (accounts.foldl (process_one ext cd group cache) (s, [])) := by
  unfold process_accounts
  rw [hg, hc]

/-- A failing group load aborts `process_accounts` with that error. -/
theorem process_accounts_err_group (ext : ExtFns) (cd : ChainData)
    (group_id cache_id : Pubkey) (e : String)
    (hg : load_mango_account_from_chain ext.groupSize DataType.MangoGroup
      ext.loadGroup cd group_id = Except.error e)
    (accounts : List Pubkey) (s : Finset Pubkey) :
    process_accounts ext cd group_id cache_id accounts s = Except.error e := by
  unfold process_accounts
  rw [hg]

/-- A failing cache load aborts `process_accounts` with that error. -/
theorem process_accounts_err_cache (ext : ExtFns) (cd : ChainData)
    (group_id cache_id : Pubkey) (group : MangoGroup) (e : String)
    (hg : load_mango_account_from_chain ext.groupSize DataType.MangoGroup
      ext.loadGroup cd group_id = Except.ok group)
    (hc : load_mango_account_from_chain ext.cacheSize DataType.MangoCache
      ext.loadCache cd cache_id = Except.error e)
    (accounts : List Pubkey) (s : Finset Pubkey) :
    process_accounts ext cd group_id cache_id accounts s = Except.error e := by
  unfold process_accounts
  rw [hg, hc]

/-- A key whose end-to-end evaluation fails leaves the accumulator
unchanged. -/
theorem process_one_skip (ext : ExtFns) (cd : ChainData) (group : MangoGroup)
    (cache : MangoCache) (pk : Pubkey) (e : String)
    (he : evalKey ext cd group cache pk = Except.error e)
    (acc : Finset Pubkey × List LiquidatableInfo) :
    process_one ext cd group cache acc pk = acc := by
  unfold evalKey at he
  unfold process_one
  cases hl : load_mango_account_from_chain ext.accountSize DataType.MangoAccount
      ext.loadAccount cd pk with
  | error e2 => rfl
  | ok account =>
    dsimp only
    rw [hl] at he
    dsimp only at he
    cases ho : get_open_orders ext cd group account with
    | error e2 => rfl
    | ok oos =>
      dsimp only
      rw [ho] at he
      dsimp only at he
      rw [he]
      simp [handle_result]

/-- `handle_result` for another key neither moves `pk` nor emits events
about it. -/
theorem handle_result_frame (k : Pubkey) (r : Except String IsLiquidatable)
    (s : Finset Pubkey) (pk : Pubkey) (hne : pk ≠ k) :
    (pk ∈ (handle_result k r s).1 ↔ pk ∈ s) ∧
    (∀ ev ∈ (handle_result k r s).2, ev.key = k) := by
  rw [handle_result_char]
  cases r with
  | error e => simp
  | ok res =>
    by_cases hmem : k ∈ s <;> cases hliq : res.liquidatable <;>
      simp [hmem, hliq, hne, LiquidatableInfo.key]

/-- Processing another key never moves `pk` in the set nor adds events
about `pk`. -/
theorem process_one_frame (ext : ExtFns) (cd : ChainData) (group : MangoGroup)
    (cache : MangoCache) (acc : Finset Pubkey × List LiquidatableInfo)
    (q pk : Pubkey) (hne : pk ≠ q) :
    (pk ∈ (process_one ext cd group cache acc q).1 ↔ pk ∈ acc.1) ∧
    (∀ ev ∈ (process_one ext cd group cache acc q).2,
      ev.key = pk → ev ∈ acc.2) := by
  unfold process_one
  cases hl : load_mango_account_from_chain ext.accountSize DataType.MangoAccount
      ext.loadAccount cd q with
  | error e => exact ⟨Iff.rfl, fun ev h _ => h⟩
  | ok account =>
    dsimp only
    cases ho : get_open_orders ext cd group account with
    | error e => exact ⟨Iff.rfl, fun ev h _ => h⟩
    | ok oos =>
      dsimp only
      have hf := handle_result_frame q
        (compute_liquidatable ext group cache account oos) acc.1 pk hne
      refine ⟨hf.1, ?_⟩
      intro ev hev hkey
      rcases List.mem_append.mp hev with h1 | h2
      · exact h1
      · exact absurd (hkey.symm.trans (hf.2 ev h2)) hne

/-- A load miss produces the lookup error. -/
theorem load_from_chain_miss {T : Type} (sz : Nat) (dt : DataType)
    (load : Bytes → T) (cd : ChainData) (pk : Pubkey)
    (h : cd.bestWrite pk = none) :
    load_mango_account_from_chain sz dt load cd pk =
      Except.error "retrieving account from chain" := by
  unfold load_mango_account_from_chain ChainData.account
  rw [h]

/-- A key absent from the mirror is skipped by `process_one`. -/
theorem process_one_miss (ext : ExtFns) (cd : ChainData) (group : MangoGroup)
    (cache : MangoCache) (pk : Pubkey) (h : cd.bestWrite pk = none)
    (acc : Finset Pubkey × List LiquidatableInfo) :
    process_one ext cd group cache acc pk = acc := by
  unfold process_one
  rw [load_from_chain_miss ext.accountSize DataType.MangoAccount
    ext.loadAccount cd pk h]

/-- Over any key list, a key absent from the mirror keeps its membership and
gains no events. -/
theorem foldl_process_frame (ext : ExtFns) (cd : ChainData) (group : MangoGroup)
    (cache : MangoCache) (pk : Pubkey) (hmiss : cd.bestWrite pk = none)
    (keys : List Pubkey) :
    ∀ acc,
      (pk ∈ (keys.foldl (process_one ext cd group cache) acc).1 ↔ pk ∈ acc.1) ∧
      (∀ ev ∈ (keys.foldl (process_one ext cd group cache) acc).2,
        ev.key = pk → ev ∈ acc.2) := by
  induction keys with
  | nil => intro acc; exact ⟨Iff.rfl, fun ev h _ => h⟩
  | cons q rest ih =>
    intro acc
    rw [List.foldl_cons]
    have hstep :
        (pk ∈ (process_one ext cd group cache acc q).1 ↔ pk ∈ acc.1) ∧
        (∀ ev ∈ (process_one ext cd group cache acc q).2,
          ev.key = pk → ev ∈ acc.2) := by
      by_cases hq : q = pk
      · rw [hq, process_one_miss ext cd group cache pk hmiss acc]
        exact ⟨Iff.rfl, fun ev h _ => h⟩
      · exact process_one_frame ext cd group cache acc q pk
          (fun hcc => hq hcc.symm)
    exact ⟨((ih _).1).trans hstep.1,
      fun ev hev hkey => hstep.2 ev ((ih _).2 ev hev hkey) hkey⟩

/-- C6: isolation — with the group and cache loadable, a key whose
evaluation fails (account load, open orders, or health computation) changes
nothing: the run equals the run with that key dropped, so every other key is
evaluated, and emits its events, exactly as before. -/
theorem process_accounts_isolation (ext : ExtFns) (cd : ChainData)
    (group_id cache_id : Pubkey) (group : MangoGroup) (cache : MangoCache)
    (hg : load_mango_account_from_chain ext.groupSize DataType.MangoGroup
      ext.loadGroup cd group_id = Except.ok group)
    (hc : load_mango_account_from_chain ext.cacheSize DataType.MangoCache
      ext.loadCache cd cache_id = Except.ok cache)
    (bad : Pubkey) (e : String)
    (hbad : evalKey ext cd group cache bad = Except.error e)
    (pre post : List Pubkey) (s : Finset Pubkey) :
    process_accounts ext cd group_id cache_id (pre ++ bad :: post) s =
      process_accounts ext cd group_id cache_id (pre ++ post) s := by
  rw [process_accounts_ok ext cd group_id cache_id group cache hg hc,
    process_accounts_ok ext cd group_id cache_id group cache hg hc]
  rw [List.foldl_append, List.foldl_append, List.foldl_cons,
    process_one_skip ext cd group cache bad e hbad]

/-- Concrete mirror for C6/C7 witnesses: a group (key 100), a cache
(key 101), a healthy margin account (key 102) and a margin account whose
open-orders key 55 is unmirrored (key 104); key 103 is absent. -/
def cd6 : ChainData :=
  { slots := [],
    writes :=
      [ { pubkey := 100, slot := 1, write_version := 0, owner := 5,
          data := [0, 0] },
        { pubkey := 101, slot := 1, write_version := 0, owner := 5,
          data := [7, 0] },
        { pubkey := 102, slot := 1, write_version := 0, owner := 5,
          data := [1, 1, 0, 0, 0] },
        { pubkey := 104, slot := 1, write_version := 0, owner := 5,
          data := [1, 1, 0, 1, 55] } ] }

/-- Witness for C6 at a concrete input. -/
theorem process_accounts_isolation_witness :
    process_accounts extT cd6 100 101 ([102] ++ 103 :: [102]) ∅ =
      process_accounts extT cd6 100 101 ([102] ++ [102]) ∅ :=
  process_accounts_isolation extT cd6 100 101 { num_oracles := 0 }
    { payload := [7, 0] } (by decide) (by decide) 103
    "retrieving account from chain" (by decide) [102] [102] ∅

/-- C7: lookup misses are non-fatal: a missing group or cache aborts the
round with an error value (no events, no set); a key whose margin account is
absent from the mirror is skipped — its prior membership is unchanged and no
event about it is emitted; a key whose open-orders lookup fails is skipped
for the round. -/
theorem process_accounts_lookup_miss (ext : ExtFns) (cd : ChainData)
    (group_id cache_id : Pubkey) :
    (cd.bestWrite group_id = none ∨ cd.bestWrite cache_id = none →
      ∀ keys s, ∃ e, process_accounts ext cd group_id cache_id keys s =
        Except.error e) ∧
    (∀ pk, cd.bestWrite pk = none →
      ∀ keys s s2 evs,
        process_accounts ext cd group_id cache_id keys s = Except.ok (s2, evs) →
        ((pk ∈ s2 ↔ pk ∈ s) ∧ ∀ ev ∈ evs, ev.key ≠ pk)) ∧
    (∀ (group : MangoGroup) (cache : MangoCache) (pk : Pubkey)
        (account : MangoAccount) (e : String)
        (acc : Finset Pubkey × List LiquidatableInfo),
      load_mango_account_from_chain ext.accountSize DataType.MangoAccount
          ext.loadAccount cd pk = Except.ok account →
      get_open_orders ext cd group account = Except.error e →
      process_one ext cd group cache acc pk = acc) := by
  refine ⟨?_, ?_, ?_⟩
  · intro hmiss keys s
    cases hgl : load_mango_account_from_chain ext.groupSize DataType.MangoGroup
        ext.loadGroup cd group_id with
    | error e2 =>
      exact ⟨e2, process_accounts_err_group ext cd group_id cache_id e2 hgl keys s⟩
    | ok group =>
      cases hmiss with
      | inl hg =>
        rw [load_from_chain_miss ext.groupSize DataType.MangoGroup
          ext.loadGroup cd group_id hg] at hgl
        cases hgl
      | inr hcm =>
        exact ⟨"retrieving account from chain",
          process_accounts_err_cache ext cd group_id cache_id group _ hgl
            (load_from_chain_miss ext.cacheSize DataType.MangoCache
              ext.loadCache cd cache_id hcm) keys s⟩
  · intro pk hmiss keys s s2 evs hrun
    cases hgl : load_mango_account_from_chain ext.groupSize DataType.MangoGroup
        ext.loadGroup cd group_id with
    | error e2 =>
      rw [process_accounts_err_group ext cd group_id cache_id e2 hgl keys s]
        at hrun
      cases hrun
    | ok group =>
      cases hcl : load_mango_account_from_chain ext.cacheSize DataType.MangoCache
          ext.loadCache cd cache_id with
      | error e2 =>
        rw [process_accounts_err_cache ext cd group_id cache_id group e2 hgl
          hcl keys s] at hrun
        cases hrun
      | ok cache =>
        rw [process_accounts_ok ext cd group_id cache_id group cache hgl hcl]
          at hrun
        injection hrun with h2
        have hf := foldl_process_frame ext cd group cache pk hmiss keys (s, [])
        rw [h2] at hf
        refine ⟨hf.1, ?_⟩
        intro ev hev hkey
        exact absurd (hf.2 ev hev hkey) (List.not_mem_nil ev)
  · intro group cache pk account e acc hl ho
    simp only [process_one, hl, ho]

/-- Empty mirror for the C7 witness. -/
def cdEmpty : ChainData := { slots := [], writes := [] }

/-- Witness for C7 at concrete inputs: a missing group aborts with an error;
unmirrored key 103 keeps its membership with no event about it; an account
whose open-orders lookup misses is skipped. -/
theorem process_accounts_lookup_miss_witness :
    (∃ e, process_accounts extT cdEmpty 100 101 [102] ∅ = Except.error e) ∧
    ((103 ∈ (insert 102 ∅ : Finset Pubkey) ↔ 103 ∈ (∅ : Finset Pubkey)) ∧
      ∀ ev ∈ [LiquidatableInfo.Start 102], ev.key ≠ 103) ∧
    process_one extT cd6 { num_oracles := 1 } { payload := [7, 0] }
      (∅, []) 104 = (∅, []) :=
  ⟨(process_accounts_lookup_miss extT cdEmpty 100 101).1 (Or.inl (by decide))
      [102] ∅,
    (process_accounts_lookup_miss extT cd6 100 101).2.1 103 (by decide)
      [102, 103] ∅ (insert 102 ∅) [LiquidatableInfo.Start 102] (by decide),
    (process_accounts_lookup_miss extT cd6 100 101).2.2 { num_oracles := 1 }
      { payload := [7, 0] } 104 (extT.loadAccount [1, 1, 0, 1, 55])
      "retrieving account from chain" (∅, []) (by decide) (by decide)⟩

/-- Modelled from the spec: a delta-stream account update
(`websocket_source::Message::Account`): key, slot, write version and the
account payload. -/
structure AccountWriteMsg where
  pubkey : Pubkey
  slot : Slot
  write_version : Nat
  account : AccountSharedData
deriving DecidableEq

/-- Modelled from the spec: the delta-stream message kinds
(`websocket_source::Message`); kinds other than account writes and slot
status updates are ignored by the loop. -/
inductive WsMessage
  | Account (aw : AccountWriteMsg)
  | SlotUpdate (slot : Slot) (parent : Option Slot) (status : SlotStatus)
  | Other
deriving DecidableEq

/-- `snapshot_source::AccountSnapshotData` (snapshot_source.rs:24-28). -/
structure AccountSnapshotData where
  pubkey : Pubkey
  account : AccountSharedData
deriving DecidableEq

/-- `snapshot_source::AccountSnapshot` (snapshot_source.rs:18-22). -/
structure AccountSnapshot where
  slot : Slot
  accounts : List AccountSnapshotData
deriving DecidableEq

/-- Modelled from the spec: `update_from_websocket` feeds account writes and
slot-status updates into the mirror. -/
def ChainData.update_from_websocket (cd : ChainData) : WsMessage → ChainData
  | .Account aw => cd.updateWrite
      { pubkey := aw.pubkey, slot := aw.slot, write_version := aw.write_version,
        owner := aw.account.owner, data := aw.account.data }
  | .SlotUpdate s _ status => cd.updateSlot s status
  | .Other => cd

/-- Modelled from the spec: `update_from_snapshot` merges each snapshot
entry as a normal write at the snapshot's slot. -/
def ChainData.update_from_snapshot (cd : ChainData) (snap : AccountSnapshot) :
    ChainData :=
  snap.accounts.foldl
    (fun acc u => acc.updateWrite
      { pubkey := u.pubkey, slot := snap.slot, write_version := 0,
        owner := u.account.owner, data := u.account.data }) cd

/-- The resolved protocol identifiers the loop receives. -/
structure Ids where
  program_id : Pubkey
  group_id : Pubkey
  cache_id : Pubkey
deriving DecidableEq

/-- The loop-owned state of `main` (main.rs:305-309). -/
structure LoopState where
  chain_data : ChainData
  mango_accounts : Finset Pubkey
  currently_liquidatable : Finset Pubkey
  one_snapshot_done : Bool
deriving DecidableEq

/-- A message drawn from one of the two input queues (main.rs:313-371). -/
inductive LoopMessage
  | websocket (m : WsMessage)
  | snapshot (snap : AccountSnapshot)
deriving DecidableEq

/-- Snapshot-message test. -/
def LoopMessage.isSnapshot : LoopMessage → Bool
  | .websocket _ => false
  | .snapshot _ => true

/-- The mango-account scan of a snapshot (main.rs:374-380); the classifier
can panic. -/
def trackSnapshotAccounts (ext : ExtFns) (ids : Ids) :
    Finset Pubkey → List AccountSnapshotData → Except String (Finset Pubkey)
  | acc, [] => Except.ok acc
  | acc, u :: rest =>
    match is_mango_account ext u.account ids.program_id ids.group_id with
    | Except.error e => Except.error e
    | Except.ok (some _) =>
      trackSnapshotAccounts ext ids (insert u.pubkey acc) rest
    | Except.ok none => trackSnapshotAccounts ext ids acc rest

/-- The shared-cache check ending the account-write branch
(main.rs:343-366): on a cache write in the live state, sweep the whole
tracked key set; a failing sweep is logged and ignored. -/
def cacheSweep (ext : ExtFns) (ids : Ids) (st : LoopState)
    (evs : List LiquidatableInfo) (aw : AccountWriteMsg) :
    Except String (LoopState × List LiquidatableInfo) :=
  if aw.pubkey = ids.cache_id then
    match is_mango_cache aw.account ids.program_id with
    | Except.error e => Except.error e
    | Except.ok true =>
      if st.one_snapshot_done = false then Except.ok (st, evs)
      else
        match process_accounts ext st.chain_data ids.group_id ids.cache_id
            (st.mango_accounts.sort (· ≤ ·)) st.currently_liquidatable with
        | Except.error _ => Except.ok (st, evs)
        | Except.ok (s, evs2) =>
          Except.ok ({ st with currently_liquidatable := s }, evs ++ evs2)
    | Except.ok false => Except.ok (st, evs)
  else Except.ok (st, evs)

/-- One iteration of the main event loop (main.rs:312-388): the mirror is
updated first; an account write recognized as a tracked margin account is
processed alone (after the first snapshot), a recognized cache write sweeps
all tracked keys; snapshots extend the tracked set, merge into the mirror
and set the one-snapshot flag. A classifier panic aborts the process. -/
def step (ext : ExtFns) (ids : Ids) (st : LoopState) :
    LoopMessage → Except String (LoopState × List LiquidatableInfo)
  | .websocket (WsMessage.Account aw) =>
    match is_mango_account ext aw.account ids.program_id ids.group_id with
    | Except.error e => Except.error e
    | Except.ok (some _) =>
      if st.one_snapshot_done = false then
        Except.ok ({ st with
          chain_data := st.chain_data.update_from_websocket (WsMessage.Account aw),
          mango_accounts := insert aw.pubkey st.mango_accounts }, [])
      else
        match process_accounts ext
            (st.chain_data.update_from_websocket (WsMessage.Account aw))
            ids.group_id ids.cache_id [aw.pubkey] st.currently_liquidatable with
        | Except.error _ =>
          cacheSweep ext ids
            { st with
              chain_data := st.chain_data.update_from_websocket
                (WsMessage.Account aw),
              mango_accounts := insert aw.pubkey st.mango_accounts } [] aw
        | Except.ok (s, evs) =>
          cacheSweep ext ids
            { st with
              chain_data := st.chain_data.update_from_websocket
                (WsMessage.Account aw),
              mango_accounts := insert aw.pubkey st.mango_accounts,
              currently_liquidatable := s } evs aw
    | Except.ok none =>
      cacheSweep ext ids
        { st with
          chain_data := st.chain_data.update_from_websocket
            (WsMessage.Account aw) } [] aw
  | .websocket (WsMessage.SlotUpdate s parent status) =>
    Except.ok ({ st with
      chain_data := st.chain_data.update_from_websocket
        (WsMessage.SlotUpdate s parent status) }, [])
  | .websocket WsMessage.Other => Except.ok (st, [])
  | .snapshot snap =>
    match trackSnapshotAccounts ext ids st.mango_accounts snap.accounts with
    | Except.error e => Except.error e
    | Except.ok tracked =>
      Except.ok
        ({ st with
            mango_accounts := tracked,
            chain_data := st.chain_data.update_from_snapshot snap,
            one_snapshot_done := true }, [])

/-- Multi-step run of the loop; a panic stops the run, keeping the state and
events produced so far. -/
def runLoop (ext : ExtFns) (ids : Ids) :
    LoopState → List LoopMessage → LoopState × List LiquidatableInfo
  | st, [] => (st, [])
  | st, m :: rest =>
    match step ext ids st m with
    | Except.error _ => (st, [])
    | Except.ok (st1, evs) =>
      ((runLoop ext ids st1 rest).1, evs ++ (runLoop ext ids st1 rest).2)

/-- In cold start the cache check is inert: it returns the state and events
unchanged (or panics). -/
theorem cacheSweep_cold (ext : ExtFns) (ids : Ids) (st : LoopState)
    (evs : List LiquidatableInfo) (aw : AccountWriteMsg)
    (h : st.one_snapshot_done = false) :
    ∀ out, cacheSweep ext ids st evs aw = Except.ok out → out = (st, evs) := by
  intro out hout
  unfold cacheSweep at hout
  by_cases hpk : aw.pubkey = ids.cache_id
  · rw [if_pos hpk] at hout
    cases hmc : is_mango_cache aw.account ids.program_id with
    | error e => rw [hmc] at hout; cases hout
    | ok b =>
      rw [hmc] at hout
      cases b
      · dsimp only at hout
        injection hout with h2
        exact h2.symm
      · dsimp only at hout
        rw [if_pos h] at hout
        injection hout with h2
        exact h2.symm
  · rw [if_neg hpk] at hout
    injection hout with h2
    exact h2.symm

/-- The cache check never changes the one-snapshot flag, the tracked keys or
the mirror. -/
theorem cacheSweep_fields (ext : ExtFns) (ids : Ids) (st : LoopState)
    (evs : List LiquidatableInfo) (aw : AccountWriteMsg)
    (out : LoopState × List LiquidatableInfo)
    (h : cacheSweep ext ids st evs aw = Except.ok out) :
    out.1.one_snapshot_done = st.one_snapshot_done ∧
    out.1.mango_accounts = st.mango_accounts ∧
    out.1.chain_data = st.chain_data := by
  unfold cacheSweep at h
  by_cases hpk : aw.pubkey = ids.cache_id
  · rw [if_pos hpk] at h
    cases hmc : is_mango_cache aw.account ids.program_id with
    | error e => rw [hmc] at h; cases h
    | ok b =>
      rw [hmc] at h
      cases b
      · dsimp only at h
        injection h with h2
        rw [← h2]
        exact ⟨rfl, rfl, rfl⟩
      · dsimp only at h
        by_cases hosd : st.one_snapshot_done = false
        · rw [if_pos hosd] at h
          injection h with h2
          rw [← h2]
          exact ⟨rfl, rfl, rfl⟩
        · rw [if_neg hosd] at h
          cases hpa : process_accounts ext st.chain_data ids.group_id
              ids.cache_id (st.mango_accounts.sort (· ≤ ·))
              st.currently_liquidatable with
          | error e =>
            rw [hpa] at h
            dsimp only at h
            injection h with h2
            rw [← h2]
            exact ⟨rfl, rfl, rfl⟩
          | ok p =>
            rw [hpa] at h
            obtain ⟨s2, evs2⟩ := p
            dsimp only at h
            injection h with h2
            rw [← h2]
            exact ⟨rfl, rfl, rfl⟩
  · rw [if_neg hpk] at h
    injection h with h2
    rw [← h2]
    exact ⟨rfl, rfl, rfl⟩

/-- A websocket step preserves the one-snapshot flag and only grows the
tracked key set. -/
theorem step_ws_fields (ext : ExtFns) (ids : Ids) (st : LoopState)
    (m : WsMessage) (out : LoopState × List LiquidatableInfo)
    (h : step ext ids st (LoopMessage.websocket m) = Except.ok out) :
    out.1.one_snapshot_done = st.one_snapshot_done ∧
    st.mango_accounts ⊆ out.1.mango_accounts := by
  cases m with
  | SlotUpdate s parent status =>
    unfold step at h
    injection h with h2
    rw [← h2]
    exact ⟨rfl, Finset.Subset.refl _⟩
  | Other =>
    unfold step at h
    injection h with h2
    rw [← h2]
    exact ⟨rfl, Finset.Subset.refl _⟩
  | Account aw =>
    unfold step at h
    dsimp only at h
    cases hma : is_mango_account ext aw.account ids.program_id ids.group_id with
    | error e => rw [hma] at h; cases h
    | ok o =>
      rw [hma] at h
      cases o with
      | none =>
        dsimp only at h
        have hf := cacheSweep_fields ext ids _ [] aw out h
        refine ⟨hf.1, ?_⟩
        rw [hf.2.1]
      | some ma =>
        dsimp only at h
        by_cases hosd : st.one_snapshot_done = false
        · rw [if_pos hosd] at h
          injection h with h2
          rw [← h2]
          exact ⟨rfl, Finset.subset_insert _ _⟩
        · rw [if_neg hosd] at h
          cases hpa : process_accounts ext
              (st.chain_data.update_from_websocket (WsMessage.Account aw))
              ids.group_id ids.cache_id [aw.pubkey]
              st.currently_liquidatable with
          | error e =>
            rw [hpa] at h
            dsimp only at h
            have hf := cacheSweep_fields ext ids _ [] aw out h
            refine ⟨hf.1, ?_⟩
            rw [hf.2.1]
            exact Finset.subset_insert _ _
          | ok p =>
            rw [hpa] at h
            obtain ⟨s2, evs2⟩ := p
            dsimp only at h
            have hf := cacheSweep_fields ext ids _ evs2 aw out h
            refine ⟨hf.1, ?_⟩
            rw [hf.2.1]
            exact Finset.subset_insert _ _

/-- The snapshot scan only inserts keys. -/
theorem trackSnapshot_mono (ext : ExtFns) (ids : Ids)
    (accs : List AccountSnapshotData) :
    ∀ acc tracked, trackSnapshotAccounts ext ids acc accs = Except.ok tracked →
      acc ⊆ tracked := by
  induction accs with
  | nil =>
    intro acc tracked h
    unfold trackSnapshotAccounts at h
    injection h with h2
    rw [← h2]
  | cons u rest ih =>
    intro acc tracked h
    unfold trackSnapshotAccounts at h
    cases hma : is_mango_account ext u.account ids.program_id ids.group_id with
    | error e => rw [hma] at h; cases h
    | ok o =>
      rw [hma] at h
      cases o with
      | some ma =>
        dsimp only at h
        exact (Finset.subset_insert _ _).trans (ih _ _ h)
      | none =>
        dsimp only at h
        exact ih _ _ h

/-- A snapshot step emits nothing, only grows the tracked set, and sets the
one-snapshot flag. -/
theorem step_snapshot_fields (ext : ExtFns) (ids : Ids) (st : LoopState)
    (snap : AccountSnapshot) (out : LoopState × List LiquidatableInfo)
    (h : step ext ids st (LoopMessage.snapshot snap) = Except.ok out) :
    out.2 = [] ∧ st.mango_accounts ⊆ out.1.mango_accounts ∧
    out.1.one_snapshot_done = true := by
  unfold step at h
  dsimp only at h
  cases ht : trackSnapshotAccounts ext ids st.mango_accounts snap.accounts with
  | error e => rw [ht] at h; cases h
  | ok tracked =>
    rw [ht] at h
    dsimp only at h
    injection h with h2
    rw [← h2]
    exact ⟨rfl, trackSnapshot_mono ext ids snap.accounts _ _ ht, rfl⟩

/-- In cold start a successful step emits no event. -/
theorem step_cold_events (ext : ExtFns) (ids : Ids) (st : LoopState)
    (msg : LoopMessage) (out : LoopState × List LiquidatableInfo)
    (h : st.one_snapshot_done = false)
    (hs : step ext ids st msg = Except.ok out) : out.2 = [] := by
  cases msg with
  | snapshot snap => exact (step_snapshot_fields ext ids st snap out hs).1
  | websocket m =>
    cases m with
    | SlotUpdate s parent status =>
      unfold step at hs
      injection hs with h2
      rw [← h2]
    | Other =>
      unfold step at hs
      injection hs with h2
      rw [← h2]
    | Account aw =>
      unfold step at hs
      dsimp only at hs
      cases hma : is_mango_account ext aw.account ids.program_id ids.group_id with
      | error e => rw [hma] at hs; cases hs
      | ok o =>
        rw [hma] at hs
        cases o with
        | some ma =>
          dsimp only at hs
          rw [if_pos h] at hs
          injection hs with h2
          rw [← h2]
        | none =>
          dsimp only at hs
          rw [cacheSweep_cold ext ids
            { st with chain_data :=
                st.chain_data.update_from_websocket (WsMessage.Account aw) }
            [] aw h out hs]

/-- In cold start a run with no snapshot message emits no event. -/
theorem runLoop_cold_events (ext : ExtFns) (ids : Ids) :
    ∀ (msgs : List LoopMessage) (st : LoopState),
      st.one_snapshot_done = false →
      (∀ m ∈ msgs, m.isSnapshot = false) →
      (runLoop ext ids st msgs).2 = [] := by
  intro msgs
  induction msgs with
  | nil => intro st h hns; rfl
  | cons m rest ih =>
    intro st h hns
    unfold runLoop
    cases hs : step ext ids st m with
    | error e => rfl
    | ok out =>
      obtain ⟨st1, evs⟩ := out
      dsimp only
      have hevs : evs = [] := step_cold_events ext ids st m (st1, evs) h hs
      rw [hevs]
      cases m with
      | snapshot snap =>
        have hc := hns (LoopMessage.snapshot snap) (List.mem_cons_self _ _)
        simp [LoopMessage.isSnapshot] at hc
      | websocket wm =>
        have hosd : st1.one_snapshot_done = false :=
          (step_ws_fields ext ids st wm (st1, evs) hs).1.trans h
        rw [ih st1 hosd (fun m2 hm2 => hns m2 (List.mem_cons_of_mem _ hm2))]
        rfl

/-- In cold start an account-write step updates the mirror and (when the
write is a recognized margin account) the tracked set, and nothing else. -/
theorem step_cold_account (ext : ExtFns) (ids : Ids) (st : LoopState)
    (aw : AccountWriteMsg) (out : LoopState × List LiquidatableInfo)
    (h : st.one_snapshot_done = false)
    (hs : step ext ids st (LoopMessage.websocket (WsMessage.Account aw)) =
      Except.ok out) :
    out.1.chain_data
        = st.chain_data.update_from_websocket (WsMessage.Account aw) ∧
      out.1.currently_liquidatable = st.currently_liquidatable ∧
      (∀ ma, is_mango_account ext aw.account ids.program_id ids.group_id =
          Except.ok (some ma) →
        out.1.mango_accounts = insert aw.pubkey st.mango_accounts) ∧
      (is_mango_account ext aw.account ids.program_id ids.group_id =
          Except.ok none →
        out.1.mango_accounts = st.mango_accounts) := by
  unfold step at hs
  dsimp only at hs
  cases hma : is_mango_account ext aw.account ids.program_id ids.group_id with
  | error e => rw [hma] at hs; cases hs
  | ok o =>
    rw [hma] at hs
    cases o with
    | some ma =>
      dsimp only at hs
      rw [if_pos h] at hs
      injection hs with h2
      rw [← h2]
      refine ⟨rfl, rfl, fun _ _ => rfl, fun hcc => ?_⟩
      simp at hcc
    | none =>
      dsimp only at hs
      rw [cacheSweep_cold ext ids
        { st with chain_data :=
            st.chain_data.update_from_websocket (WsMessage.Account aw) }
        [] aw h out hs]
      refine ⟨rfl, rfl, fun ma2 hcc => ?_, fun _ => rfl⟩
      simp at hcc

/-- C5: cold-start gating — while the one-snapshot flag is unset, no
successful step emits an event, a whole run of delta messages emits no
event, and an account-write delta still updates the mirror and the tracked
key set while leaving the liquidatable set untouched. -/
theorem cold_start_gating (ext : ExtFns) (ids : Ids) :
    (∀ st msg out, st.one_snapshot_done = false →
      step ext ids st msg = Except.ok out → out.2 = []) ∧
    (∀ st msgs, st.one_snapshot_done = false →
      (∀ m ∈ msgs, m.isSnapshot = false) → (runLoop ext ids st msgs).2 = []) ∧
    (∀ st aw out, st.one_snapshot_done = false →
      step ext ids st (LoopMessage.websocket (WsMessage.Account aw)) =
        Except.ok out →
      (out.1.chain_data
          = st.chain_data.update_from_websocket (WsMessage.Account aw) ∧
        out.1.currently_liquidatable = st.currently_liquidatable ∧
        (∀ ma, is_mango_account ext aw.account ids.program_id ids.group_id =
            Except.ok (some ma) →
          out.1.mango_accounts = insert aw.pubkey st.mango_accounts) ∧
        (is_mango_account ext aw.account ids.program_id ids.group_id =
            Except.ok none →
          out.1.mango_accounts = st.mango_accounts))) :=
  ⟨fun st msg out h hs => step_cold_events ext ids st msg out h hs,
    fun st msgs h hns => runLoop_cold_events ext ids msgs st h hns,
    fun st aw out h hs => step_cold_account ext ids st aw out h hs⟩

/-- A successful step never removes a tracked key. -/
theorem step_tracked_mono (ext : ExtFns) (ids : Ids) (st : LoopState)
    (msg : LoopMessage) (out : LoopState × List LiquidatableInfo)
    (h : step ext ids st msg = Except.ok out) :
    st.mango_accounts ⊆ out.1.mango_accounts := by
  cases msg with
  | websocket m => exact (step_ws_fields ext ids st m out h).2
  | snapshot snap => exact (step_snapshot_fields ext ids st snap out h).2.1

/-- A run never removes a tracked key. -/
theorem runLoop_tracked_mono (ext : ExtFns) (ids : Ids) :
    ∀ (msgs : List LoopMessage) (st : LoopState),
      st.mango_accounts ⊆ (runLoop ext ids st msgs).1.mango_accounts := by
  intro msgs
  induction msgs with
  | nil => intro st; exact Finset.Subset.refl _
  | cons m rest ih =>
    intro st
    unfold runLoop
    cases hs : step ext ids st m with
    | error e => exact Finset.Subset.refl _
    | ok out =>
      obtain ⟨st1, evs⟩ := out
      dsimp only
      exact (step_tracked_mono ext ids st m (st1, evs) hs).trans (ih st1)

/-- C10: the tracked margin-account key set only grows — no successful step,
and no run of the loop, ever removes a key from it, in cold start or live
state. -/
theorem mango_accounts_monotone (ext : ExtFns) (ids : Ids) :
    (∀ st msg out, step ext ids st msg = Except.ok out →
      st.mango_accounts ⊆ out.1.mango_accounts) ∧
    (∀ st msgs, st.mango_accounts ⊆ (runLoop ext ids st msgs).1.mango_accounts) :=
  ⟨fun st msg out h => step_tracked_mono ext ids st msg out h,
    fun st msgs => runLoop_tracked_mono ext ids msgs st⟩

/-- Concrete identifiers for the loop witnesses. -/
def idsT : Ids := { program_id := 5, group_id := 1, cache_id := 101 }

/-- Cold-start loop state for the witnesses. -/
def st0 : LoopState :=
  { chain_data := cdEmpty, mango_accounts := ∅, currently_liquidatable := ∅,
    one_snapshot_done := false }

/-- A margin-account delta message for the witnesses. -/
def awT : AccountWriteMsg :=
  { pubkey := 102, slot := 1, write_version := 0,
    account := { owner := 5, data := [1, 1, 0, 0, 0] } }

/-- The state after feeding `awT` to `st0` in cold start. -/
def st0after : LoopState :=
  { chain_data := cdEmpty.update_from_websocket (WsMessage.Account awT),
    mango_accounts := insert 102 ∅, currently_liquidatable := ∅,
    one_snapshot_done := false }

/-- Witness for C5 at a concrete input. -/
theorem cold_start_gating_witness :
    ((st0after, ([] : List LiquidatableInfo)).2 = []) ∧
    (runLoop extT idsT st0 [LoopMessage.websocket (WsMessage.Account awT)]).2
        = [] ∧
    (st0after.chain_data
        = st0.chain_data.update_from_websocket (WsMessage.Account awT) ∧
      st0after.currently_liquidatable = st0.currently_liquidatable ∧
      (∀ ma, is_mango_account extT awT.account idsT.program_id idsT.group_id =
          Except.ok (some ma) →
        st0after.mango_accounts = insert awT.pubkey st0.mango_accounts) ∧
      (is_mango_account extT awT.account idsT.program_id idsT.group_id =
          Except.ok none →
        st0after.mango_accounts = st0.mango_accounts)) :=
  ⟨(cold_start_gating extT idsT).1 st0
      (LoopMessage.websocket (WsMessage.Account awT)) (st0after, []) rfl
      (by decide),
    (cold_start_gating extT idsT).2.1 st0
      [LoopMessage.websocket (WsMessage.Account awT)] rfl (by decide),
    (cold_start_gating extT idsT).2.2 st0 awT (st0after, []) rfl (by decide)⟩

/-- Witness for C10 at a concrete input. -/
theorem mango_accounts_monotone_witness :
    st0.mango_accounts ⊆ st0after.mango_accounts ∧
    st0.mango_accounts ⊆
      (runLoop extT idsT st0
        [LoopMessage.websocket (WsMessage.Account awT)]).1.mango_accounts :=
  ⟨(mango_accounts_monotone extT idsT).1 st0
      (LoopMessage.websocket (WsMessage.Account awT)) (st0after, [])
      (by decide),
    (mango_accounts_monotone extT idsT).2 st0
      [LoopMessage.websocket (WsMessage.Account awT)]⟩
